import Mathlib

/-!
Shallow embedding of the `node-debugger-mcp` server (src/index.ts,
class `NodeDebuggerServer`) and verification of its specification claims.

The server is single-threaded and event-driven.  External effects
(filesystem existence checks, OS port probes, process spawning, the
Chrome-DevTools-Protocol client) are modelled as explicit oracle
parameters; asynchronous protocol events (Debugger.paused,
Debugger.resumed, Runtime.executionContextCreated) are modelled as an
explicit event schedule applied at the await points where the real
event loop can deliver them.
-/

namespace NodeDebuggerMcp

/-- Association-list model of a JS `Map`: lookup by key. -/
def mapLookup {α β : Type} [DecidableEq α] : List (α × β) → α → Option β
  | [], _ => none
  | (k', v') :: rest, k => if k' = k then some v' else mapLookup rest k

/-- JS `Map.set`: replace the value in place if the key exists, else append. -/
def mapInsert {α β : Type} [DecidableEq α] : List (α × β) → α → β → List (α × β)
  | [], k, v => [(k, v)]
  | (k', v') :: rest, k, v =>
    if k' = k then (k, v) :: rest else (k', v') :: mapInsert rest k v

/-- JS `Map.delete`: remove the (unique) entry with the key, if present. -/
def mapDelete {α β : Type} [DecidableEq α] : List (α × β) → α → List (α × β)
  | [], _ => []
  | (k', v') :: rest, k => if k' = k then rest else (k', v') :: mapDelete rest k

/-- Number of entries of the association list carrying key `k`. -/
def countKey {β : Type} (m : List (String × β)) (k : String) : Nat :=
  (m.filter (fun e => decide (e.1 = k))).length

/-- JS `Set.add`: no duplicates, insertion order preserved. -/
def setInsert (s : List Nat) (p : Nat) : List Nat :=
  if p ∈ s then s else s ++ [p]

/-- One call frame as reported by the protocol in a `Debugger.paused` event
(`params.callFrames`); only the fields the server reads are kept. -/
structure CallFrame where
  callFrameId : String
  functionName : String
  url : String
  lineNumber : Nat
  columnNumber : Nat
  deriving DecidableEq, Repr

/-- The `DebugSession` interface of src/index.ts.  Optional TS fields are
`Option`; `isPaused` is read only through JS truthiness, so the `undefined`
initialisation after the exit-observer reset is modelled as `false`. -/
structure DebugSession where
  connected : Bool
  processId : Option Nat
  port : Option Nat
  callStack : Option (List CallFrame)
  client : Option Nat
  breakpoints : Option (List (String × String))
  isPaused : Bool
  currentExecutionContext : Option Nat
  deriving DecidableEq, Repr

/-- The `ManagedProcess` interface (the `ChildProcess` handle and start time
are abstracted away; they never influence control flow in the claims). -/
structure ManagedProcess where
  pid : Nat
  port : Nat
  command : String
  args : List String
  scriptPath : String
  deriving DecidableEq, Repr

/-- The mutable fields of `NodeDebuggerServer`. -/
structure ServerState where
  managedProcesses : List (Nat × ManagedProcess)
  debugSession : DebugSession
  nextPort : Nat
  usedPorts : List Nat
  deriving DecidableEq, Repr

/-- A tool-call response: the text content and the `isError` flag. -/
structure ToolResult where
  text : String
  isError : Bool
  deriving DecidableEq, Repr

/-- The session the constructor builds:
`{ connected: false, breakpoints: new Map(), isPaused: false }`. -/
def initialDebugSession : DebugSession :=
  { connected := false, processId := none, port := none, callStack := none,
    client := none, breakpoints := some [], isPaused := false,
    currentExecutionContext := none }

/-- The session installed by the exit observer: `{ connected: false }`
(every optional field `undefined`). -/
def detachedSession : DebugSession :=
  { connected := false, processId := none, port := none, callStack := none,
    client := none, breakpoints := none, isPaused := false,
    currentExecutionContext := none }

/-- Initial server state (`nextPort = 9229`, empty registry and port set). -/
def initialState : ServerState :=
  { managedProcesses := [], debugSession := initialDebugSession,
    nextPort := 9229, usedPorts := [] }

/-- The guard shared by all debug operations:
`!this.debugSession.connected || !this.debugSession.client`. -/
def noSession (s : DebugSession) : Bool :=
  !s.connected || s.client.isNone

/-- The error result returned by every debug operation while detached. -/
def noSessionResult : ToolResult :=
  ⟨"No active debug session. Please attach debugger first.", true⟩

/-! Port allocation (`findAvailablePort`, `isPortAvailable`).

`isPortAvailable` probes the OS by attempting a TCP connection; it is
modelled by the oracle `osAvail : Nat → Bool` (`true` = nothing accepted
the probe, port free).  The real `while` loop has no upper bound; the
model adds fuel and returns `none` when it runs out, which corresponds to
the real loop still scanning. -/

/-- The scanning loop of `findAvailablePort`:
`while (usedPorts.has(port) || !(await isPortAvailable(port))) port++`. -/
def findPortLoop (used : List Nat) (osAvail : Nat → Bool) :
    Nat → Nat → Option Nat
  | 0, _ => none
  | fuel + 1, port =>
    if port ∈ used || !osAvail port then findPortLoop used osAvail fuel (port + 1)
    else some port

/-- Model of `findAvailablePort`: scan from `nextPort`, return the first free port and
advance the cursor past it (`this.nextPort = port + 1`). -/
def findAvailablePort (st : ServerState) (osAvail : Nat → Bool) (fuel : Nat) :
    Option (Nat × ServerState) :=
  match findPortLoop st.usedPorts osAvail fuel st.nextPort with
  | none => none
  | some port => some (port, { st with nextPort := port + 1 })

/-! Process registry (`startNodeProcess`, `killProcess`, exit observer). -/

/-- Node's `resolve(workingDir, script)` restricted to the cases the server
can hit: an absolute script path stands alone, a relative one is joined to
the working directory (no `..`-normalisation; the resolved string is only
used as an opaque key for the existence oracle and the error message). -/
def resolvePath (dir script : String) : String :=
  if script.startsWith "/" then script else dir ++ "/" ++ script

/-- Model of `startNodeProcess`.  Oracles: `fsExists` models `existsSync`, `osAvail`
and `fuel` feed the port allocator, `spawnPid` models `spawn` (`none` when
spawning throws or yields no pid, `some pid` on success); `serverCwd`
models `process.cwd()`.  `none` overall = the port scan never terminated. -/
def startNodeProcess (st : ServerState) (script : String) (sargs : List String)
    (cwd : Option String) (serverCwd : String) (fsExists : String → Bool)
    (osAvail : Nat → Bool) (fuel : Nat) (spawnPid : Option Nat) :
    Option (ToolResult × ServerState) :=
  let workingDir := cwd.getD serverCwd
  let scriptPath := resolvePath workingDir script
  if !fsExists scriptPath then
    some (⟨"Script not found: " ++ scriptPath, true⟩, st)
  else
    match findAvailablePort st osAvail fuel with
    | none => none
    | some (port, stP) =>
      match spawnPid with
      | none => some (⟨"Error starting process: spawn failed", true⟩, stP)
      | some pid =>
        let mp : ManagedProcess :=
          { pid := pid, port := port, command := "node",
            args := ("--inspect-brk=" ++ toString port) :: script :: sargs,
            scriptPath := scriptPath }
        some (⟨"Started Node.js process with PID " ++ toString pid ++
                 " on debug port " ++ toString port, false⟩,
              { stP with usedPorts := setInsert stP.usedPorts port,
                         managedProcesses := mapInsert stP.managedProcesses pid mp })

/-- The `child.on("exit", ...)` observer: look the pid up; if still
registered, release the port, drop the entry, and reset the debug session
when it was bound to this process's port. -/
def onProcessExit (st : ServerState) (pid : Nat) : ServerState :=
  match mapLookup st.managedProcesses pid with
  | none => st
  | some pr =>
    let st' := { st with usedPorts := st.usedPorts.erase pr.port,
                         managedProcesses := mapDelete st.managedProcesses pid }
    if st.debugSession.port = some pr.port then
      { st' with debugSession := detachedSession }
    else st'

/-- Model of `killProcess`.  `killOk = false` models `process.kill` throwing (the
catch branch returns an error and, the delete being after the kill, leaves
the registry untouched).  Note: the used-port set is not touched here. -/
def killProcess (st : ServerState) (pid : Nat) (killOk : Bool) :
    ToolResult × ServerState :=
  match mapLookup st.managedProcesses pid with
  | none =>
    (⟨"Process " ++ toString pid ++ " not found in managed processes", true⟩, st)
  | some _ =>
    if killOk then
      (⟨"Killed process " ++ toString pid, false⟩,
       { st with managedProcesses := mapDelete st.managedProcesses pid })
    else
      (⟨"Error killing process: kill failed", true⟩, st)

/-! Protocol events and their handlers.

The three subscriptions installed in `attachDebugger` write to
`this.debugSession`, i.e. to whatever session object is current when the
event is delivered. -/

/-- An asynchronous CDP event the installed handlers react to. -/
inductive DebugEvent where
  | paused (frames : List CallFrame)
  | resumed
  | contextCreated (ctxId : Nat)
  deriving DecidableEq, Repr

/-- Effect of one delivered event, exactly as the handlers write it:
`paused` stores `params.callFrames` and sets `isPaused = true`; `resumed`
sets `isPaused = false` and stores `[]`; `executionContextCreated` stores
`params.context.id`. -/
def applyEvent (s : DebugSession) (e : DebugEvent) : DebugSession :=
  match e with
  | .paused frames => { s with callStack := some frames, isPaused := true }
  | .resumed => { s with isPaused := false, callStack := some [] }
  | .contextCreated ctxId => { s with currentExecutionContext := some ctxId }

/-- Deliver a whole schedule of events in order. -/
def applyEvents (s : DebugSession) (es : List DebugEvent) : DebugSession :=
  es.foldl applyEvent s

/-! The attach handshake (`attachDebugger`).

The whole body sits in one `try`: a throw anywhere before the final
return is caught and reported as an attach error.  Await points at which
the event loop can deliver events:
  * while `Debugger.enable()` / `Runtime.enable()` resolve — the handlers
    then still write into the PREVIOUS session object, which the
    re-initialisation on the next line replaces;
  * while `Debugger.pause()` and the 100 ms delay resolve;
  * while `Runtime.runIfWaitingForDebugger()` and the 200 ms delay resolve.
`Debugger.pause` and `Runtime.runIfWaitingForDebugger` failures are
swallowed by inner try/catches and have no state effect here. -/

/-- Environment of one `attachDebugger` call: outcomes of the protocol
calls plus the event schedule at each await point. -/
structure AttachEnv where
  closeThrows : Bool
  cdpClient : Option Nat
  enableThrows : Bool
  eventsDuringEnable : List DebugEvent
  pauseThrows : Bool
  eventsAfterPause : List DebugEvent
  runIfWaitingThrows : Bool
  eventsAfterRun : List DebugEvent
  deriving Repr

/-- The fresh session `attachDebugger` installs after enabling the domains. -/
def attachInitSession (port clientId : Nat) : DebugSession :=
  { connected := true, processId := none, port := some port,
    callStack := some [], client := some clientId, breakpoints := some [],
    isPaused := false, currentExecutionContext := none }

/-- Model of `attachDebugger`. -/
def attachDebugger (st : ServerState) (port : Nat) (env : AttachEnv) :
    ToolResult × ServerState :=
  if st.debugSession.client.isSome && env.closeThrows then
    (⟨"Error attaching debugger: close failed", true⟩, st)
  else
    match env.cdpClient with
    | none => (⟨"Error attaching debugger: connect failed", true⟩, st)
    | some clientId =>
      let stEn :=
        { st with debugSession := applyEvents st.debugSession env.eventsDuringEnable }
      if env.enableThrows then
        (⟨"Error attaching debugger: enable failed", true⟩, stEn)
      else
        let s1 := applyEvents (attachInitSession port clientId) env.eventsAfterPause
        let s2 := applyEvents s1 env.eventsAfterRun
        (⟨"Successfully attached debugger to port " ++ toString port, false⟩,
         { stEn with debugSession := s2 })

/-! Breakpoints, stepping, pausing, evaluation. -/

/-- The key under which `setBreakpoint` stores a protocol breakpoint id:
`` `${args.file}:${args.line}` `` — the optional condition is not part
of the key. -/
def bpKey (file : String) (line : Nat) : String :=
  file ++ ":" ++ toString line

/-- Outcome of the protocol call `Debugger.setBreakpointByUrl` (which is
sent `lineNumber = line - 1`, the 0-based translation). -/
inductive BpOutcome where
  | ok (id : String)
  | noId
  | protoThrows
  deriving DecidableEq, Repr

/-- Model of `setBreakpoint`. On a protocol result carrying a `breakpointId`, the
mapping `bpKey ↦ id` is stored (note the `breakpoints!` non-null
assertion: an `undefined` table makes the `.set` throw, caught as an
error). -/
def setBreakpoint (st : ServerState) (file : String) (line : Nat)
    (condition : Option String) (out : BpOutcome) : ToolResult × ServerState :=
  if noSession st.debugSession then (noSessionResult, st)
  else
    match out with
    | .protoThrows => (⟨"Error setting breakpoint: protocol error", true⟩, st)
    | .noId =>
      (⟨"Failed to set breakpoint at " ++ bpKey file line, true⟩, st)
    | .ok id =>
      match st.debugSession.breakpoints with
      | none => (⟨"Error setting breakpoint: TypeError", true⟩, st)
      | some bps =>
        let condNote :=
          match condition with
          | some c => " (condition: " ++ c ++ ")"
          | none => ""
        (⟨"Set breakpoint at " ++ bpKey file line ++ condNote ++ " - ID: " ++ id,
          false⟩,
         { st with debugSession :=
            { st.debugSession with breakpoints := some (mapInsert bps (bpKey file line) id) } })

/-- The four `step_debug` actions (`continue` is `cont` here). -/
inductive StepAction where
  | next
  | step
  | cont
  | out
  deriving DecidableEq, Repr

/-- Model of `stepDebug`: guard, then one protocol request; no session-state change
(the transition only happens when the later pause/resume event arrives). -/
def stepDebug (st : ServerState) (a : StepAction) (protoThrows : Bool) :
    ToolResult × ServerState :=
  if noSession st.debugSession then (noSessionResult, st)
  else if protoThrows then
    (⟨"Error performing debug action: protocol error", true⟩, st)
  else
    let nm :=
      match a with
      | .next => "next"
      | .step => "step"
      | .cont => "continue"
      | .out => "out"
    (⟨"Performed debug action: " ++ nm, false⟩, st)

/-- Model of `pauseExecution`: guard, then `Debugger.pause()`; no state change. -/
def pauseExecution (st : ServerState) (protoThrows : Bool) :
    ToolResult × ServerState :=
  if noSession st.debugSession then (noSessionResult, st)
  else if protoThrows then
    (⟨"Error pausing execution: protocol error", true⟩, st)
  else (⟨"Execution paused successfully", false⟩, st)

/-- Where `evaluateExpression` sends the expression. -/
inductive EvalTarget where
  | frame (callFrameId : String)
  | runtime (ctx : Option Nat)
  deriving DecidableEq, Repr

/-- Protocol response to an evaluation request: a protocol-layer throw, a
response with `exceptionDetails` (carrying the thrown object's optional
`description`), or a plain result with optional `value` / `description`. -/
inductive ProtoEvalResp where
  | throws
  | exn (description : Option String)
  | ok (value : Option String) (description : Option String)
  deriving DecidableEq, Repr

/-- JS `x || dflt` on an optional string (`undefined` and `""` are falsy). -/
def jsOr (x : Option String) (dflt : String) : String :=
  match x with
  | some s => if s = "" then dflt else s
  | none => dflt

/-- The branch of `evaluateExpression`:
`if (isPaused && callStack && callStack.length > 0)` evaluate on
`callStack[0].callFrameId`, else `Runtime.evaluate` with
`contextId = currentExecutionContext`. -/
def evalTarget (s : DebugSession) : EvalTarget :=
  if s.isPaused then
    match s.callStack with
    | some (f :: _) => .frame f.callFrameId
    | _ => .runtime s.currentExecutionContext
  else .runtime s.currentExecutionContext

/-- Rendering `result.result.value !== undefined ? value : description || '[Object]'`
(the JSON rendering of the value is abstracted to the string itself). -/
def renderValue (value description : Option String) : String :=
  match value with
  | some v => v
  | none => jsOr description "[Object]"

/-- Model of `evaluateExpression`.  The oracle `proto` answers in function of the
target actually addressed, so the theorems can see which context was used. -/
def evaluateExpression (st : ServerState) (expr : String)
    (proto : EvalTarget → ProtoEvalResp) : ToolResult × ServerState :=
  if noSession st.debugSession then (noSessionResult, st)
  else
    match proto (evalTarget st.debugSession) with
    | .throws => (⟨"Error evaluating expression: protocol error", true⟩, st)
    | .exn d => (⟨"Exception: " ++ jsOr d "Unknown error", true⟩, st)
    | .ok v d => (⟨expr ++ " = " ++ renderValue v d, false⟩, st)


/-! Concrete demonstration values used by counterexamples and witnesses. -/

/-- A protocol call frame as delivered for the first line of a script. -/
def demoFrame : CallFrame :=
  { callFrameId := "frame-0", functionName := "main",
    url := "file:///tmp/a.js", lineNumber := 0, columnNumber := 0 }

/-- A registered debuggee: pid 101 on debug port 9229. -/
def demoProc : ManagedProcess :=
  { pid := 101, port := 9229, command := "node",
    args := ["--inspect-brk=9229", "a.js"], scriptPath := "/tmp/a.js" }

/-- A session attached to port 9229 (client handle 7) holding one
breakpoint table entry. -/
def demoAttachedSession : DebugSession :=
  { connected := true, processId := none, port := some 9229,
    callStack := some [], client := some 7,
    breakpoints := some [("file:///tmp/a.js:5", "1:0")],
    isPaused := false, currentExecutionContext := some 1 }

/-- A server state with one managed process and an attached session. -/
def demoState : ServerState :=
  { managedProcesses := [(101, demoProc)], debugSession := demoAttachedSession,
    nextPort := 9230, usedPorts := [9229] }

/-- The same server state while paused on `demoFrame`. -/
def pausedState : ServerState :=
  { demoState with debugSession :=
      { demoAttachedSession with isPaused := true, callStack := some [demoFrame] } }

/-- An attach environment in which every protocol call succeeds and no
asynchronous event is delivered before the handshake returns. -/
def quietAttachEnv : AttachEnv :=
  { closeThrows := false, cdpClient := some 1, enableThrows := false,
    eventsDuringEnable := [], pauseThrows := false, eventsAfterPause := [],
    runIfWaitingThrows := false, eventsAfterRun := [] }

/-- An attach environment whose debuggee delivers its entry pause event
during the final fixed delay. -/
def pausedAttachEnv : AttachEnv :=
  { quietAttachEnv with eventsAfterRun := [DebugEvent.paused [demoFrame]] }

/-- An attach environment in which closing the previous client throws. -/
def closeFailEnv : AttachEnv :=
  { quietAttachEnv with closeThrows := true }

/-! Invariants and reachability. -/

/-- The pause/stack coupling: paused exactly when the stored stack is
non-empty (an absent `callStack` reads as empty through JS truthiness). -/
def pausedStackInv (s : DebugSession) : Prop :=
  s.isPaused = true ↔ s.callStack.getD [] ≠ []

/-- Protocol conformance of one event: CDP delivers `Debugger.paused` with
at least the current frame in `callFrames`. -/
def goodEvent : DebugEvent → Prop
  | .paused frames => frames ≠ []
  | .resumed => True
  | .contextCreated _ => True

/-- Protocol conformance of a whole attach environment. -/
def goodEnv (env : AttachEnv) : Prop :=
  (∀ e ∈ env.eventsDuringEnable, goodEvent e) ∧
  (∀ e ∈ env.eventsAfterPause, goodEvent e) ∧
  (∀ e ∈ env.eventsAfterRun, goodEvent e)

/-- Reachable server states: the initial state closed under every tool
operation, the exit observer, and protocol-conformant event delivery. -/
inductive Reachable : ServerState → Prop where
  | init : Reachable initialState
  | start (st : ServerState) (script : String) (sargs : List String)
      (cwd : Option String) (serverCwd : String) (fsEx : String → Bool)
      (osAv : Nat → Bool) (fuel : Nat) (pid : Option Nat)
      (r : ToolResult × ServerState) :
      Reachable st →
      startNodeProcess st script sargs cwd serverCwd fsEx osAv fuel pid = some r →
      Reachable r.2
  | kill (st : ServerState) (pid : Nat) (ok : Bool) :
      Reachable st → Reachable (killProcess st pid ok).2
  | procExit (st : ServerState) (pid : Nat) :
      Reachable st → Reachable (onProcessExit st pid)
  | attach (st : ServerState) (port : Nat) (env : AttachEnv) :
      Reachable st → goodEnv env → Reachable (attachDebugger st port env).2
  | setBp (st : ServerState) (file : String) (line : Nat)
      (cond : Option String) (out : BpOutcome) :
      Reachable st → Reachable (setBreakpoint st file line cond out).2
  | stepD (st : ServerState) (a : StepAction) (thr : Bool) :
      Reachable st → Reachable (stepDebug st a thr).2
  | pauseE (st : ServerState) (thr : Bool) :
      Reachable st → Reachable (pauseExecution st thr).2
  | evalE (st : ServerState) (expr : String) (proto : EvalTarget → ProtoEvalResp) :
      Reachable st → Reachable (evaluateExpression st expr proto).2
  | event (st : ServerState) (e : DebugEvent) :
      Reachable st → goodEvent e →
      Reachable { st with debugSession := applyEvent st.debugSession e }

/-! Helper lemmas about the embedding. -/

theorem applyEvents_append (s : DebugSession) (a b : List DebugEvent) :
    applyEvents s (a ++ b) = applyEvents (applyEvents s a) b := by
  simp [applyEvents, List.foldl_append]

theorem applyEvent_breakpoints (s : DebugSession) (e : DebugEvent) :
    (applyEvent s e).breakpoints = s.breakpoints := by
  cases e <;> rfl

theorem applyEvents_breakpoints (s : DebugSession) (es : List DebugEvent) :
    (applyEvents s es).breakpoints = s.breakpoints := by
  induction es generalizing s with
  | nil => rfl
  | cons e es ih => simpa [applyEvents, applyEvent_breakpoints] using ih (applyEvent s e)

theorem pausedStackInv_applyEvent {s : DebugSession} {e : DebugEvent}
    (hs : pausedStackInv s) (he : goodEvent e) :
    pausedStackInv (applyEvent s e) := by
  cases e with
  | paused frames => simpa [pausedStackInv, applyEvent, goodEvent] using he
  | resumed => simp [pausedStackInv, applyEvent]
  | contextCreated ctxId => simpa [pausedStackInv, applyEvent] using hs

theorem pausedStackInv_applyEvents {s : DebugSession} {es : List DebugEvent}
    (hs : pausedStackInv s) (hes : ∀ e ∈ es, goodEvent e) :
    pausedStackInv (applyEvents s es) := by
  induction es generalizing s with
  | nil => exact hs
  | cons e es ih =>
    exact ih (pausedStackInv_applyEvent hs (hes e (by simp)))
      (fun e' h' => hes e' (by simp [h']))

theorem findAvailablePort_some {st : ServerState} {osAv : Nat → Bool}
    {fuel p : Nat} {st' : ServerState}
    (h : findAvailablePort st osAv fuel = some (p, st')) :
    st' = { st with nextPort := p + 1 } ∧
    findPortLoop st.usedPorts osAv fuel st.nextPort = some p := by
  unfold findAvailablePort at h
  split at h
  · cases h
  · next q hq =>
    rw [Option.some.injEq, Prod.mk.injEq] at h
    obtain ⟨h1, h2⟩ := h
    subst h1
    exact ⟨h2.symm, hq⟩

theorem findPortLoop_spec {used : List Nat} {av : Nat → Bool} :
    ∀ {fuel start p : Nat}, findPortLoop used av fuel start = some p →
      p ∉ used ∧ av p = true ∧ start ≤ p := by
  intro fuel
  induction fuel with
  | zero => intro start p h; cases h
  | succ n ih =>
    intro start p h
    unfold findPortLoop at h
    split at h
    · obtain ⟨h1, h2, h3⟩ := ih h
      exact ⟨h1, h2, Nat.le_of_succ_le h3⟩
    · next hcond =>
      rw [Option.some.injEq] at h
      subst h
      simp only [Bool.or_eq_true, Bool.not_eq_true', decide_eq_true_eq, not_or] at hcond
      push_neg at hcond
      refine ⟨hcond.1, ?_, Nat.le_refl _⟩
      have := hcond.2
      simpa using this

theorem startNodeProcess_session {st : ServerState} {script : String}
    {sargs : List String} {cwd : Option String} {serverCwd : String}
    {fsEx : String → Bool} {osAv : Nat → Bool} {fuel : Nat}
    {pid : Option Nat} {r : ToolResult × ServerState}
    (h : startNodeProcess st script sargs cwd serverCwd fsEx osAv fuel pid = some r) :
    r.2.debugSession = st.debugSession := by
  unfold startNodeProcess at h
  dsimp only at h
  split at h
  · rw [Option.some.injEq] at h
    rw [← h]
  · split at h
    · cases h
    · next q stP hq =>
      obtain ⟨hstP, _⟩ := findAvailablePort_some hq
      subst hstP
      cases pid with
      | none =>
        rw [Option.some.injEq] at h
        rw [← h]
      | some p =>
        rw [Option.some.injEq] at h
        rw [← h]

theorem killProcess_session (st : ServerState) (pid : Nat) (ok : Bool) :
    (killProcess st pid ok).2.debugSession = st.debugSession := by
  unfold killProcess
  split
  · rfl
  · split <;> rfl

theorem stepDebug_snd (st : ServerState) (a : StepAction) (thr : Bool) :
    (stepDebug st a thr).2 = st := by
  unfold stepDebug
  split
  · rfl
  · split <;> rfl

theorem pauseExecution_snd (st : ServerState) (thr : Bool) :
    (pauseExecution st thr).2 = st := by
  unfold pauseExecution
  split
  · rfl
  · split <;> rfl

theorem evaluateExpression_snd (st : ServerState) (expr : String)
    (proto : EvalTarget → ProtoEvalResp) :
    (evaluateExpression st expr proto).2 = st := by
  unfold evaluateExpression
  split
  · rfl
  · split <;> rfl

theorem setBreakpoint_session_core (st : ServerState) (file : String)
    (line : Nat) (cond : Option String) (out : BpOutcome) :
    ((setBreakpoint st file line cond out).2.debugSession.isPaused
        = st.debugSession.isPaused) ∧
    ((setBreakpoint st file line cond out).2.debugSession.callStack
        = st.debugSession.callStack) := by
  unfold setBreakpoint
  split
  · exact ⟨rfl, rfl⟩
  · cases out with
    | protoThrows => exact ⟨rfl, rfl⟩
    | noId => exact ⟨rfl, rfl⟩
    | ok id =>
      cases hbp : st.debugSession.breakpoints with
      | none => simp [hbp]
      | some bps => simp [hbp]

theorem onProcessExit_session (st : ServerState) (pid : Nat) :
    (onProcessExit st pid).debugSession = st.debugSession ∨
    (onProcessExit st pid).debugSession = detachedSession := by
  unfold onProcessExit
  split
  · exact Or.inl rfl
  · split
    · exact Or.inr rfl
    · exact Or.inl rfl

theorem attachDebugger_success {st : ServerState} {port : Nat} {env : AttachEnv}
    {cid : Nat} (hclose : env.closeThrows = false)
    (hcdp : env.cdpClient = some cid) (hen : env.enableThrows = false) :
    attachDebugger st port env =
      (⟨"Successfully attached debugger to port " ++ toString port, false⟩,
       { st with debugSession := applyEvents (attachInitSession port cid) (env.eventsAfterPause ++ env.eventsAfterRun) }) := by
  unfold attachDebugger
  rw [hclose, hcdp]
  simp only [Bool.and_false, Bool.false_eq_true, if_false, hen]
  rw [applyEvents_append]

theorem pausedStackInv_attach {st : ServerState} {port : Nat} {env : AttachEnv}
    (hs : pausedStackInv st.debugSession) (he : goodEnv env) :
    pausedStackInv (attachDebugger st port env).2.debugSession := by
  obtain ⟨h1, h2, h3⟩ := he
  unfold attachDebugger
  split
  · exact hs
  · split
    · exact hs
    · split
      · exact pausedStackInv_applyEvents hs h1
      · exact pausedStackInv_applyEvents
          (pausedStackInv_applyEvents (by simp [pausedStackInv, attachInitSession]) h2) h3

theorem mapDelete_length {α β : Type} [DecidableEq α] {m : List (α × β)}
    {k : α} {v : β} (h : mapLookup m k = some v) :
    (mapDelete m k).length + 1 = m.length := by
  induction m with
  | nil => cases h
  | cons e rest ih =>
    by_cases hk : e.1 = k
    · simp [mapDelete, hk]
    · rw [show e = (e.1, e.2) from rfl] at *
      simp only [mapLookup, hk, if_false] at h
      simp [mapDelete, hk, ih h]

theorem mapLookup_eq_none {α β : Type} [DecidableEq α] {m : List (α × β)}
    {k : α} (h : k ∉ m.map Prod.fst) : mapLookup m k = none := by
  induction m with
  | nil => rfl
  | cons e rest ih =>
    rcases e with ⟨k', v'⟩
    simp only [List.map_cons, List.mem_cons, not_or] at h
    simp only [mapLookup]
    rw [if_neg (fun he => h.1 (Eq.symm he))]
    exact ih h.2

theorem mapLookup_mapDelete_nodup {α β : Type} [DecidableEq α] {m : List (α × β)}
    {k : α} (h : (m.map Prod.fst).Nodup) : mapLookup (mapDelete m k) k = none := by
  induction m with
  | nil => rfl
  | cons e rest ih =>
    simp only [List.map_cons, List.nodup_cons] at h
    rw [show e = (e.1, e.2) from rfl]
    by_cases hk : e.1 = k
    · simp only [mapDelete, hk, if_true]
      subst hk
      exact mapLookup_eq_none h.1
    · simp only [mapDelete, hk, if_false, mapLookup, if_neg hk]
      exact ih h.2

theorem mapLookup_mapInsert_self {α β : Type} [DecidableEq α] (m : List (α × β))
    (k : α) (v : β) : mapLookup (mapInsert m k v) k = some v := by
  induction m with
  | nil => simp [mapInsert, mapLookup]
  | cons e rest ih =>
    by_cases hk : e.1 = k
    · rw [show e = (e.1, e.2) from rfl]
      simp [mapInsert, hk, mapLookup]
    · rw [show e = (e.1, e.2) from rfl]
      simp only [mapInsert, hk, if_false, mapLookup, if_neg hk]
      exact ih

theorem countKey_cons_eq {β : Type} (x : String × β) (rest : List (String × β))
    (k : String) (h : x.1 = k) :
    countKey (x :: rest) k = countKey rest k + 1 := by
  simp [countKey, List.filter_cons, h]

theorem countKey_cons_ne {β : Type} (x : String × β) (rest : List (String × β))
    (k : String) (h : ¬x.1 = k) :
    countKey (x :: rest) k = countKey rest k := by
  simp [countKey, List.filter_cons, h]

theorem countKey_mapInsert {β : Type} {m : List (String × β)} {k : String}
    (v : β) (h : countKey m k ≤ 1) : countKey (mapInsert m k v) k = 1 := by
  induction m with
  | nil => simp [mapInsert, countKey]
  | cons e rest ih =>
    rcases e with ⟨k', v'⟩
    by_cases hk : k' = k
    · simp only [mapInsert, if_pos hk]
      rw [countKey_cons_eq _ _ _ rfl]
      rw [countKey_cons_eq _ _ _ hk] at h
      have h0 : countKey rest k = 0 := by omega
      rw [h0]
    · simp only [mapInsert, if_neg hk]
      rw [countKey_cons_ne _ _ _ hk] at h ⊢
      exact ih h

theorem killProcess_found {st : ServerState} {pid : Nat} {pr : ManagedProcess}
    (h : mapLookup st.managedProcesses pid = some pr) :
    killProcess st pid true =
      (⟨"Killed process " ++ toString pid, false⟩,
       { st with managedProcesses := mapDelete st.managedProcesses pid }) := by
  simp [killProcess, h]

theorem onProcessExit_found {st : ServerState} {pid : Nat} {pr : ManagedProcess}
    (h : mapLookup st.managedProcesses pid = some pr) :
    (onProcessExit st pid).managedProcesses = mapDelete st.managedProcesses pid ∧
    (onProcessExit st pid).usedPorts = st.usedPorts.erase pr.port := by
  unfold onProcessExit
  rw [h]
  dsimp only
  split <;> exact ⟨rfl, rfl⟩

theorem setBreakpoint_ok_snd {st : ServerState} {file : String} {line : Nat}
    {cond : Option String} {id : String} {bps : List (String × String)}
    (hs : noSession st.debugSession = false)
    (hbps : st.debugSession.breakpoints = some bps) :
    (setBreakpoint st file line cond (BpOutcome.ok id)).2 =
      { st with debugSession :=
          { st.debugSession with breakpoints := some (mapInsert bps (bpKey file line) id) } } := by
  simp [setBreakpoint, hs, hbps]

/-! Claim theorems. -/

/-- C3 (confirmed): in every reachable session state, `isPaused = true`
exactly when the call-frame sequence is non-empty, because every operation
and event handler (pause event, resume event, attach initialisation, the
exit-observer reset) updates the two together.  Reachability assumes
protocol-conformant event delivery (`goodEvent`): CDP sends a
`Debugger.paused` event with at least one call frame. -/
theorem C3_paused_iff_nonempty_stack (st : ServerState) (h : Reachable st) :
    st.debugSession.isPaused = true ↔ st.debugSession.callStack.getD [] ≠ [] := by
  have key : pausedStackInv st.debugSession := by
    induction h with
    | init => simp [pausedStackInv, initialState, initialDebugSession]
    | start st script sargs cwd serverCwd fsEx osAv fuel pid r hst hsome ih =>
      unfold pausedStackInv
      rw [startNodeProcess_session hsome]
      exact ih
    | kill st pid ok hst ih =>
      unfold pausedStackInv
      rw [killProcess_session]
      exact ih
    | procExit st pid hst ih =>
      rcases onProcessExit_session st pid with he | he
      · unfold pausedStackInv
        rw [he]
        exact ih
      · unfold pausedStackInv
        rw [he]
        simp [detachedSession]
    | attach st port env hst henv ih => exact pausedStackInv_attach ih henv
    | setBp st file line cond out hst ih =>
      have hc := setBreakpoint_session_core st file line cond out
      unfold pausedStackInv
      rw [hc.1, hc.2]
      exact ih
    | stepD st a thr hst ih =>
      unfold pausedStackInv
      rw [stepDebug_snd]
      exact ih
    | pauseE st thr hst ih =>
      unfold pausedStackInv
      rw [pauseExecution_snd]
      exact ih
    | evalE st expr proto hst ih =>
      unfold pausedStackInv
      rw [evaluateExpression_snd]
      exact ih
    | event st e hst he ih => exact pausedStackInv_applyEvent ih he
  exact key

/-- Witness for C3: the invariant instantiated at the initial state. -/
theorem C3_witness :
    initialState.debugSession.isPaused = true ↔
      initialState.debugSession.callStack.getD [] ≠ [] :=
  C3_paused_iff_nonempty_stack initialState Reachable.init

/-- C4 (confirmed): while the session is detached (`connected = false` or
no client handle), `set_breakpoint`, `step_debug`, `pause_execution` and
`evaluate_expression` all return the `NoActiveSession` error result and
leave the whole server state (session and registry) unchanged. -/
theorem C4_detached_ops_fail (st : ServerState)
    (h : st.debugSession.connected = false ∨ st.debugSession.client = none) :
    (∀ file line cond out, setBreakpoint st file line cond out = (noSessionResult, st)) ∧
    (∀ a thr, stepDebug st a thr = (noSessionResult, st)) ∧
    (∀ thr, pauseExecution st thr = (noSessionResult, st)) ∧
    (∀ expr proto, evaluateExpression st expr proto = (noSessionResult, st)) := by
  have hn : noSession st.debugSession = true := by
    rcases h with h | h <;> simp [noSession, h]
  refine ⟨?_, ?_, ?_, ?_⟩ <;> intros <;>
    simp [setBreakpoint, stepDebug, pauseExecution, evaluateExpression, hn]

/-- Witness for C4: the operations at the (detached) initial state. -/
theorem C4_witness :
    (initialState.debugSession.connected = false ∨
      initialState.debugSession.client = none) ∧
    stepDebug initialState StepAction.cont false = (noSessionResult, initialState) ∧
    pauseExecution initialState false = (noSessionResult, initialState) :=
  ⟨Or.inl rfl,
   (C4_detached_ops_fail initialState (Or.inl rfl)).2.1 StepAction.cont false,
   (C4_detached_ops_fail initialState (Or.inl rfl)).2.2.1 false⟩

/-- C10 (confirmed): when the script path, resolved against the given or
current working directory, does not exist, the launch returns the
`ScriptNotFound` error and the state is returned untouched — no port is
allocated, nothing is spawned, the registry is unchanged. -/
theorem C10_script_not_found (st : ServerState) (script : String)
    (sargs : List String) (cwd : Option String) (serverCwd : String)
    (fsEx : String → Bool) (osAv : Nat → Bool) (fuel : Nat) (pid : Option Nat)
    (h : fsEx (resolvePath (cwd.getD serverCwd) script) = false) :
    startNodeProcess st script sargs cwd serverCwd fsEx osAv fuel pid =
      some (⟨"Script not found: " ++ resolvePath (cwd.getD serverCwd) script, true⟩, st) := by
  simp [startNodeProcess, h]

/-- Witness for C10: launching a non-existent relative script. -/
theorem C10_witness :
    ((fun _ => false) : String → Bool) (resolvePath ((none : Option String).getD "/work") "a.js") = false ∧
    startNodeProcess initialState "a.js" [] none "/work" (fun _ => false)
        (fun _ => true) 1 (some 101) =
      some (⟨"Script not found: " ++ resolvePath "/work" "a.js", true⟩, initialState) :=
  ⟨rfl, C10_script_not_found initialState "a.js" [] none "/work" (fun _ => false)
     (fun _ => true) 1 (some 101) rfl⟩

/-- C6 (confirmed): a successful port allocation returns a port outside the
used-port set that passes the OS probe; under the registry invariant that
every live process's port is in the used set, the port collides with no
live process; the cursor advances past the returned value
(`nextPort = p + 1`), the returned port is at least the old cursor, and
any later successful allocation returns a strictly larger port, so a port
is never reissued (in particular not while its owner lives). -/
theorem C6_port_allocation (st : ServerState) (osAv : Nat → Bool)
    (fuel p : Nat) (st' : ServerState)
    (halloc : findAvailablePort st osAv fuel = some (p, st'))
    (hreg : ∀ e ∈ st.managedProcesses, e.2.port ∈ st.usedPorts) :
    p ∉ st.usedPorts ∧
    osAv p = true ∧
    (∀ e ∈ st.managedProcesses, e.2.port ≠ p) ∧
    st'.nextPort = p + 1 ∧
    st.nextPort ≤ p ∧
    (∀ fuel2 q st'', findAvailablePort st' osAv fuel2 = some (q, st'') → p < q) := by
  obtain ⟨hst', hloop⟩ := findAvailablePort_some halloc
  obtain ⟨h1, h2, h3⟩ := findPortLoop_spec hloop
  subst hst'
  refine ⟨h1, h2, ?_, rfl, h3, ?_⟩
  · intro e he hpe
    exact h1 (hpe ▸ hreg e he)
  · intro fuel2 q st'' h2'
    obtain ⟨_, hloop2⟩ := findAvailablePort_some h2'
    obtain ⟨_, _, h3'⟩ := findPortLoop_spec hloop2
    exact Nat.lt_of_succ_le h3'

/-- Witness for C6: the first allocation from the initial state yields
port 9229 and advances the cursor to 9230. -/
theorem C6_witness :
    findAvailablePort initialState (fun _ => true) 1 =
      some (9229, { initialState with nextPort := 9230 }) ∧
    9229 ∉ initialState.usedPorts ∧
    ({ initialState with nextPort := 9230 } : ServerState).nextPort = 9229 + 1 :=
  have h : findAvailablePort initialState (fun _ => true) 1 =
      some (9229, { initialState with nextPort := 9230 }) := rfl
  have hreg : ∀ e ∈ initialState.managedProcesses, e.2.port ∈ initialState.usedPorts := by
    simp [initialState]
  ⟨h, (C6_port_allocation initialState (fun _ => true) 1 9229 _ h hreg).1,
      (C6_port_allocation initialState (fun _ => true) 1 9229 _ h hreg).2.2.2.1⟩

/-- Counterexample for C2: from the state with process 101 on port 9229,
`kill_process` removes the registry entry but leaves 9229 in the used-port
set — the port is not released — and the subsequent exit event, finding
the entry already gone, still does not release it.  This refutes
"killing it via kill_process ... releases exactly that process's port". -/
theorem C2_counterexample :
    (killProcess demoState 101 true).2.managedProcesses = [] ∧
    (killProcess demoState 101 true).2.usedPorts = [9229] ∧
    (onProcessExit (killProcess demoState 101 true).2 101).usedPorts = [9229] := by
  refine ⟨rfl, rfl, rfl⟩

/-- C2 (corrected): a `kill_process` on a registered pid removes exactly
one registry entry but does NOT release the port (the used-port set is
untouched; the exit observer later finds nothing to release); a natural
exit of a still-registered process removes exactly one entry and releases
exactly its own port; a second `kill_process` on the same pid returns the
`ProcessNotFound` error and changes nothing. -/
theorem C2_amended_kill_and_exit (st : ServerState) (pid : Nat)
    (pr : ManagedProcess)
    (hfind : mapLookup st.managedProcesses pid = some pr)
    (hnodup : (st.managedProcesses.map Prod.fst).Nodup) :
    (killProcess st pid true).2.managedProcesses.length + 1
        = st.managedProcesses.length ∧
    (killProcess st pid true).2.usedPorts = st.usedPorts ∧
    mapLookup (killProcess st pid true).2.managedProcesses pid = none ∧
    killProcess (killProcess st pid true).2 pid true =
      (⟨"Process " ++ toString pid ++ " not found in managed processes", true⟩,
       (killProcess st pid true).2) ∧
    (onProcessExit st pid).managedProcesses = mapDelete st.managedProcesses pid ∧
    (onProcessExit st pid).managedProcesses.length + 1
        = st.managedProcesses.length ∧
    (onProcessExit st pid).usedPorts = st.usedPorts.erase pr.port := by
  have hkill := killProcess_found hfind
  have hnone : mapLookup (mapDelete st.managedProcesses pid) pid = none :=
    mapLookup_mapDelete_nodup hnodup
  have hexit := onProcessExit_found hfind
  refine ⟨?_, ?_, ?_, ?_, hexit.1, ?_, hexit.2⟩
  · rw [hkill]
    exact mapDelete_length hfind
  · rw [hkill]
  · rw [hkill]
    exact hnone
  · rw [hkill]
    simp [killProcess, hnone]
  · rw [hexit.1]
    exact mapDelete_length hfind

/-- Witness for C2's corrected statement at the demonstration state. -/
theorem C2_amended_witness :
    mapLookup demoState.managedProcesses 101 = some demoProc ∧
    (killProcess demoState 101 true).2.usedPorts = demoState.usedPorts ∧
    (onProcessExit demoState 101).usedPorts = demoState.usedPorts.erase demoProc.port :=
  have hfind : mapLookup demoState.managedProcesses 101 = some demoProc := rfl
  have hnodup : (demoState.managedProcesses.map Prod.fst).Nodup := by
    simp [demoState]
  ⟨hfind,
   (C2_amended_kill_and_exit demoState 101 demoProc hfind hnodup).2.1,
   (C2_amended_kill_and_exit demoState 101 demoProc hfind hnodup).2.2.2.2.2.2⟩

/-- C7 (confirmed): setting a breakpoint twice with the same key — same
file and line (and hence also with the same optional condition, which the
stored key ``file:line`` does not even include) — leaves a single table
entry for that key, and the stored protocol identifier is the one returned
by the second call. -/
theorem C7_breakpoint_key_overwrite (st : ServerState) (file : String)
    (line : Nat) (cond1 cond2 : Option String) (id1 id2 : String)
    (bps : List (String × String))
    (hs : noSession st.debugSession = false)
    (hbps : st.debugSession.breakpoints = some bps)
    (huniq : countKey bps (bpKey file line) ≤ 1) :
    ∃ bps2,
      (setBreakpoint (setBreakpoint st file line cond1 (BpOutcome.ok id1)).2
          file line cond2 (BpOutcome.ok id2)).2.debugSession.breakpoints = some bps2 ∧
      mapLookup bps2 (bpKey file line) = some id2 ∧
      countKey bps2 (bpKey file line) = 1 := by
  have h1 := @setBreakpoint_ok_snd st file line cond1 id1 bps hs hbps
  have hs1 : noSession (setBreakpoint st file line cond1 (BpOutcome.ok id1)).2.debugSession = false := by
    rw [h1]
    simpa [noSession] using hs
  have hbps1 : (setBreakpoint st file line cond1 (BpOutcome.ok id1)).2.debugSession.breakpoints
      = some (mapInsert bps (bpKey file line) id1) := by
    rw [h1]
  have h2 := @setBreakpoint_ok_snd (setBreakpoint st file line cond1 (BpOutcome.ok id1)).2
    file line cond2 id2 (mapInsert bps (bpKey file line) id1) hs1 hbps1
  refine ⟨mapInsert (mapInsert bps (bpKey file line) id1) (bpKey file line) id2,
    ?_, ?_, ?_⟩
  · rw [h2]
  · exact mapLookup_mapInsert_self _ _ _
  · exact countKey_mapInsert id2 (Nat.le_of_eq (countKey_mapInsert id1 huniq))

/-- Witness for C7: re-setting the already-present key
`file:///tmp/a.js:5` in the demonstration state. -/
theorem C7_witness :
    noSession demoState.debugSession = false ∧
    ∃ bps2,
      (setBreakpoint (setBreakpoint demoState "file:///tmp/a.js" 5 none (BpOutcome.ok "1:0")).2
          "file:///tmp/a.js" 5 none (BpOutcome.ok "2:0")).2.debugSession.breakpoints = some bps2 ∧
      mapLookup bps2 (bpKey "file:///tmp/a.js" 5) = some "2:0" ∧
      countKey bps2 (bpKey "file:///tmp/a.js" 5) = 1 :=
  ⟨rfl,
   C7_breakpoint_key_overwrite demoState "file:///tmp/a.js" 5 none none "1:0" "2:0"
     [("file:///tmp/a.js:5", "1:0")] rfl rfl (by decide)⟩

/-- C5 (confirmed): while attached, evaluation addresses the innermost
(first) call frame exactly when `isPaused` holds and the call stack is
non-empty, and the runtime's most recently observed execution context
otherwise; a protocol response carrying `exceptionDetails` is returned as
a reported `Exception: ...` message built from the exception's own
description (not as the protocol-layer `Error evaluating expression`
shape); and a response with no `value` is rendered from the result's
textual `description` (falling back to `[Object]`) rather than failing. -/
theorem C5_evaluate_contexts (st : ServerState) (expr : String)
    (proto : EvalTarget → ProtoEvalResp)
    (hs : noSession st.debugSession = false) :
    (∀ f rest, st.debugSession.isPaused = true →
        st.debugSession.callStack = some (f :: rest) →
        evalTarget st.debugSession = EvalTarget.frame f.callFrameId) ∧
    (st.debugSession.isPaused = false ∨ st.debugSession.callStack.getD [] = [] →
        evalTarget st.debugSession
          = EvalTarget.runtime st.debugSession.currentExecutionContext) ∧
    (∀ d, proto (evalTarget st.debugSession) = ProtoEvalResp.exn d →
        evaluateExpression st expr proto
          = (⟨"Exception: " ++ jsOr d "Unknown error", true⟩, st)) ∧
    (∀ d, proto (evalTarget st.debugSession) = ProtoEvalResp.ok none d →
        evaluateExpression st expr proto
          = (⟨expr ++ " = " ++ jsOr d "[Object]", false⟩, st)) := by
  refine ⟨?_, ?_, ?_, ?_⟩
  · intro f rest hp hcs
    simp [evalTarget, hp, hcs]
  · intro h
    rcases h with h | h
    · simp [evalTarget, h]
    · cases hp : st.debugSession.isPaused with
      | false => simp [evalTarget, hp]
      | true =>
        cases hcs : st.debugSession.callStack with
        | none => simp [evalTarget, hp, hcs]
        | some l =>
          cases l with
          | nil => simp [evalTarget, hp, hcs]
          | cons f rest =>
            rw [hcs] at h
            simp at h
  · intro d hd
    simp [evaluateExpression, hs, hd, renderValue]
  · intro d hd
    simp [evaluateExpression, hs, hd, renderValue]

/-- Witness for C5: evaluation in the paused demonstration state addresses
frame `frame-0`, and a thrown expression comes back as a reported
exception message. -/
theorem C5_witness :
    noSession pausedState.debugSession = false ∧
    evalTarget pausedState.debugSession = EvalTarget.frame "frame-0" ∧
    evaluateExpression pausedState "x" (fun _ => ProtoEvalResp.exn (some "boom"))
      = (⟨"Exception: " ++ jsOr (some "boom") "Unknown error", true⟩, pausedState) :=
  ⟨rfl,
   (C5_evaluate_contexts pausedState "x" (fun _ => ProtoEvalResp.exn (some "boom")) rfl).1
     demoFrame [] rfl rfl,
   (C5_evaluate_contexts pausedState "x" (fun _ => ProtoEvalResp.exn (some "boom")) rfl).2.2.1
     (some "boom") rfl⟩

/-- Counterexample for C1: an attach in which every protocol call succeeds
but the debuggee's entry pause event has not yet been delivered when the
two fixed delays elapse (the explicit `Debugger.pause` failure being
swallowed).  The call reports success, yet the session is NOT paused and
the call-stack snapshot is empty — refuting the claimed deterministic
Attached/Paused outcome. -/
theorem C1_counterexample :
    (attachDebugger initialState 9229 quietAttachEnv).1.isError = false ∧
    (attachDebugger initialState 9229 quietAttachEnv).2.debugSession.isPaused = false ∧
    (attachDebugger initialState 9229 quietAttachEnv).2.debugSession.callStack = some [] := by
  refine ⟨rfl, rfl, rfl⟩

/-- C1 (corrected): after a successful attach handshake (close, connect and
enable all succeed), the session is Attached/Paused with exactly the
delivered non-empty frame snapshot PROVIDED the last event delivered
during the post-initialisation waits is a pause event with a non-empty
frame list; without such an event the attach still reports success with
the session not paused (see the counterexample). -/
theorem C1_amended_attach_paused (st : ServerState) (port : Nat)
    (env : AttachEnv) (cid : Nat) (pre : List DebugEvent)
    (frames : List CallFrame)
    (hclose : env.closeThrows = false)
    (hcdp : env.cdpClient = some cid)
    (hen : env.enableThrows = false)
    (hev : env.eventsAfterPause ++ env.eventsAfterRun
        = pre ++ [DebugEvent.paused frames])
    (hf : frames ≠ []) :
    (attachDebugger st port env).1.isError = false ∧
    (attachDebugger st port env).2.debugSession.isPaused = true ∧
    (attachDebugger st port env).2.debugSession.callStack = some frames ∧
    (attachDebugger st port env).2.debugSession.callStack.getD [] ≠ [] := by
  rw [attachDebugger_success hclose hcdp hen, hev, applyEvents_append]
  refine ⟨rfl, rfl, rfl, ?_⟩
  simpa [applyEvents, applyEvent] using hf

/-- Witness for C1's corrected statement: the debuggee's entry pause
arrives during the final delay. -/
theorem C1_amended_witness :
    pausedAttachEnv.eventsAfterPause ++ pausedAttachEnv.eventsAfterRun
      = [] ++ [DebugEvent.paused [demoFrame]] ∧
    (attachDebugger initialState 9229 pausedAttachEnv).1.isError = false ∧
    (attachDebugger initialState 9229 pausedAttachEnv).2.debugSession.isPaused = true ∧
    (attachDebugger initialState 9229 pausedAttachEnv).2.debugSession.callStack
      = some [demoFrame] :=
  have h := C1_amended_attach_paused initialState 9229 pausedAttachEnv 1 []
    [demoFrame] rfl rfl rfl rfl (by simp)
  ⟨rfl, h.1, h.2.1, h.2.2.1⟩

/-- Counterexample for C8: from the demonstration state (which holds a
previous client handle), an attach whose close of that handle throws is
aborted: the result carries `isError = true` and the state — including the
old client handle — is unchanged, even though a fresh connection was
available.  The close failure is propagated as the attach's failure, not
swallowed. -/
theorem C8_counterexample :
    demoState.debugSession.client = some 7 ∧
    closeFailEnv.cdpClient = some 1 ∧
    (attachDebugger demoState 9230 closeFailEnv).1.isError = true ∧
    (attachDebugger demoState 9230 closeFailEnv).2 = demoState := by
  refine ⟨rfl, rfl, rfl, rfl⟩

/-- C8 (corrected): when a previous connection handle exists, it is closed
before anything else — in particular before the new connection is opened,
so the connection outcome is irrelevant to a close failure — but a failure
of that close is NOT swallowed: the attach aborts with an error result and
leaves the entire state unchanged. -/
theorem C8_amended_close_failure_aborts (st : ServerState) (port : Nat)
    (env : AttachEnv)
    (hcl : st.debugSession.client.isSome = true)
    (hthrow : env.closeThrows = true) :
    attachDebugger st port env
      = (⟨"Error attaching debugger: close failed", true⟩, st) ∧
    attachDebugger st port { env with cdpClient := none }
      = attachDebugger st port env := by
  constructor
  · simp [attachDebugger, hcl, hthrow]
  · simp [attachDebugger, hcl, hthrow]

/-- Witness for C8's corrected statement at the demonstration state. -/
theorem C8_amended_witness :
    demoState.debugSession.client.isSome = true ∧
    attachDebugger demoState 9230 closeFailEnv
      = (⟨"Error attaching debugger: close failed", true⟩, demoState) :=
  ⟨rfl, (C8_amended_close_failure_aborts demoState 9230 closeFailEnv rfl rfl).1⟩

/-- Counterexample for C9: the demonstration session holds one breakpoint
table entry; a successful re-attach replaces the session with a fresh one
whose table is empty, and the exit of the bound process resets the session
so the table field is gone — the in-memory table is NOT left unchanged. -/
theorem C9_counterexample :
    demoState.debugSession.breakpoints = some [("file:///tmp/a.js:5", "1:0")] ∧
    (attachDebugger demoState 9229 quietAttachEnv).1.isError = false ∧
    (attachDebugger demoState 9229 quietAttachEnv).2.debugSession.breakpoints = some [] ∧
    (onProcessExit demoState 101).debugSession.breakpoints = none := by
  refine ⟨rfl, rfl, rfl, rfl⟩

/-- C9 (corrected): a transition away from the previous session does NOT
preserve the breakpoint table: a successful re-attach installs a fresh
empty table (events delivered during the handshake never touch it), and
the exit of the process whose port the session is bound to resets the
session, discarding the table; in neither case are the old entries kept
or individually removed through the protocol. -/
theorem C9_amended_breakpoints_dropped (st : ServerState) (port cid : Nat)
    (env : AttachEnv) (pid : Nat) (pr : ManagedProcess)
    (hclose : env.closeThrows = false)
    (hcdp : env.cdpClient = some cid)
    (hen : env.enableThrows = false)
    (hfind : mapLookup st.managedProcesses pid = some pr)
    (hport : st.debugSession.port = some pr.port) :
    (attachDebugger st port env).2.debugSession.breakpoints = some [] ∧
    (onProcessExit st pid).debugSession.breakpoints = none := by
  constructor
  · rw [attachDebugger_success hclose hcdp hen]
    simp [applyEvents_breakpoints, attachInitSession]
  · unfold onProcessExit
    rw [hfind]
    dsimp only
    rw [if_pos hport]
    rfl

/-- Witness for C9's corrected statement at the demonstration state. -/
theorem C9_amended_witness :
    mapLookup demoState.managedProcesses 101 = some demoProc ∧
    (attachDebugger demoState 9229 quietAttachEnv).2.debugSession.breakpoints = some [] ∧
    (onProcessExit demoState 101).debugSession.breakpoints = none :=
  have h := C9_amended_breakpoints_dropped demoState 9229 1 quietAttachEnv 101
    demoProc rfl rfl rfl rfl rfl
  ⟨rfl, h.1, h.2⟩

end NodeDebuggerMcp
